import Mathlib

/-!
# Verification of the HEIF edit-list box core (`Srcs/common/editbox.hpp`)

This file shallowly embeds the `EditListBox` / `EditBox` classes of the
repository and proves the spec's claims about them.

The repository ships only the header `editbox.hpp`; the bodies of
`addEntry`, `numEntry`, `writeBox`, `parseBox` and the `EditBox` methods
live in a `.cpp` file that is not part of the sources, so those operations
are modelled from the specification (each such definition says so in its
doc comment).  The templated accessor `getEntry` is implemented in the
header itself (lines 83–95) and is embedded from that source text.

Machine integers are modelled as `Nat` (unsigned) and `Int` (signed,
two's-complement on the wire); a bitstream is a list of bytes
(`List Nat`, each element `< 256` when produced by the writers).
-/

/-! ## Byte-level bitstream primitives (external collaborator model)

`writeN k v` writes `v` as `k` big-endian bytes (truncating to `k` bytes,
as the fixed-width `BitStream` writers do); `readN k` reads `k` big-endian
bytes. -/

/-- Write `v` as `k` big-endian bytes (low `8*k` bits of `v`). -/
def writeN : Nat → Nat → List Nat
  | 0, _ => []
  | k + 1, v => (v / 256 ^ k) % 256 :: writeN k v

/-- Read `k` big-endian bytes from the front of a byte list. -/
def readN : Nat → List Nat → Option (Nat × List Nat)
  | 0, bs => some (0, bs)
  | _ + 1, [] => none
  | k + 1, b :: bs =>
      match readN k bs with
      | some (v, rest) => some (b * 256 ^ k + v, rest)
      | none => none

/-- Two's-complement write of a signed value as `k` big-endian bytes. -/
def writeIntN (k : Nat) (t : Int) : List Nat :=
  writeN k (t % ((256 : Int) ^ k)).toNat

/-- Decode `k` bytes read as an unsigned value into a two's-complement
signed value. -/
def fromTwos (k : Nat) (n : Nat) : Int :=
  if 2 * n < 256 ^ k then (n : Int) else (n : Int) - (256 : Int) ^ k

/-- Two's-complement read of a signed `k`-byte value. -/
def readIntN (k : Nat) (bs : List Nat) : Option (Int × List Nat) :=
  match readN k bs with
  | some (v, rest) => some (fromTwos k v, rest)
  | none => none

/-! ## Data model (from `editbox.hpp`, lines 28–43) -/

/-- Edit List Entry Format version 0 (`editbox.hpp` lines 28–34):
`uint32_t mSegmentDuration; int32_t mMediaTime; uint16_t mMediaRateInteger;
uint16_t mMediaRateFraction;`. -/
structure EntryVersion0 where
  mSegmentDuration : Nat
  mMediaTime : Int
  mMediaRateInteger : Nat
  mMediaRateFraction : Nat
  deriving DecidableEq, Repr

/-- Edit List Entry Format version 1 (`editbox.hpp` lines 37–43):
`uint64_t mSegmentDuration; int64_t mMediaTime; uint16_t mMediaRateInteger;
uint16_t mMediaRateFraction;`. -/
structure EntryVersion1 where
  mSegmentDuration : Nat
  mMediaTime : Int
  mMediaRateInteger : Nat
  mMediaRateFraction : Nat
  deriving DecidableEq, Repr

/-- The field ranges imposed by the C++ member types of `EntryVersion0`. -/
def EntryVersion0.Valid (e : EntryVersion0) : Prop :=
  e.mSegmentDuration < 2 ^ 32 ∧
  -(2 ^ 31 : Int) ≤ e.mMediaTime ∧ e.mMediaTime < 2 ^ 31 ∧
  e.mMediaRateInteger < 2 ^ 16 ∧ e.mMediaRateFraction < 2 ^ 16

instance (e : EntryVersion0) : Decidable e.Valid := by
  unfold EntryVersion0.Valid; infer_instance

/-- The field ranges imposed by the C++ member types of `EntryVersion1`. -/
def EntryVersion1.Valid (e : EntryVersion1) : Prop :=
  e.mSegmentDuration < 2 ^ 64 ∧
  -(2 ^ 63 : Int) ≤ e.mMediaTime ∧ e.mMediaTime < 2 ^ 63 ∧
  e.mMediaRateInteger < 2 ^ 16 ∧ e.mMediaRateFraction < 2 ^ 16

instance (e : EntryVersion1) : Decidable e.Valid := by
  unfold EntryVersion1.Valid; infer_instance

/-- State of an `EditListBox` (`editbox.hpp` lines 24–76): the `FullBox`
version/flags metadata plus the two entry vectors `mEntryVersion0` and
`mEntryVersion1` (lines 74–75). -/
structure EditListBox where
  version : Nat
  flags : Nat
  mEntryVersion0 : List EntryVersion0
  mEntryVersion1 : List EntryVersion1
  deriving DecidableEq, Repr

/-- `EditListBox()` constructor: a box with no entries; the `FullBox`
header starts at version 0, flags 0. -/
def EditListBox.init : EditListBox :=
  { version := 0, flags := 0, mEntryVersion0 := [], mEntryVersion1 := [] }

/-! ## The templated accessor `getEntry` (source: `editbox.hpp` lines 83–95)

```cpp
template <typename T>
T& EditListBox::getEntry(const std::uint32_t index) const
{
    if (std::is_same<T, EditListBox::EntryVersion0>::value)
    {
        return (T&)mEntryVersion0.at(index);
    }
    if (std::is_same<T, EditListBox::EntryVersion1>::value)
    {
        return (T&)mEntryVersion1.at(index);
    }
}
```

`std::vector::at` is bounds-checked: it throws `std::out_of_range` when
`index >= size()`; that exceptional outcome is the `outOfRange` error.
When `T` matches neither entry struct, no `return` executes and control
falls off the end of a value-returning function: undefined behavior,
modelled as `none` in the tag-generic `getEntryAt`. -/

/-- Errors observable from entry access.  The source can only ever produce
`outOfRange` (from `std::vector::at`); `layoutMismatch` is the error kind
the spec names, included so the spec's claim about it can be stated. -/
inductive GetError where
  | outOfRange
  | layoutMismatch
  deriving DecidableEq, Repr

/-- `getEntry<EntryVersion0>(index)`: the first `is_same` test succeeds, so
the call returns `(T&)mEntryVersion0.at(index)` — the bounds-checked
element of `mEntryVersion0`, throwing `outOfRange` past the end. -/
def EditListBox.getEntryV0 (b : EditListBox) (index : Nat) :
    Except GetError EntryVersion0 :=
  match b.mEntryVersion0[index]? with
  | some e => .ok e
  | none => .error .outOfRange

/-- `getEntry<EntryVersion1>(index)`: the second `is_same` test succeeds, so
the call returns `(T&)mEntryVersion1.at(index)` — the bounds-checked
element of `mEntryVersion1`, throwing `outOfRange` past the end. -/
def EditListBox.getEntryV1 (b : EditListBox) (index : Nat) :
    Except GetError EntryVersion1 :=
  match b.mEntryVersion1[index]? with
  | some e => .ok e
  | none => .error .outOfRange

/-- The possible template arguments of `getEntry<T>`: the two entry structs,
or any other type (`otherType`). -/
inductive EntryTypeArg where
  | entryVersion0
  | entryVersion1
  | otherType
  deriving DecidableEq, Repr

/-- Result value of a generic `getEntry` call. -/
inductive EntryValue where
  | v0 (e : EntryVersion0)
  | v1 (e : EntryVersion1)
  deriving DecidableEq, Repr

/-- `getEntry<T>` over an arbitrary template argument `T`: for the two
entry structs the matching `if` returns the corresponding element; for any
other `T` neither `is_same` holds and control falls off the end of the
value-returning function — no defined result, modelled as `none`. -/
def EditListBox.getEntryAt (b : EditListBox) (T : EntryTypeArg) (index : Nat) :
    Option (Except GetError EntryValue) :=
  match T with
  | .entryVersion0 => some ((b.getEntryV0 index).map EntryValue.v0)
  | .entryVersion1 => some ((b.getEntryV1 index).map EntryValue.v1)
  | .otherType => none

/-- Writing through the reference returned by `getEntry<EntryVersion0>`:
the method is `const` but returns a non-const `T&` — the C-style cast
`(T&)` on the `const` element reference discards the const qualifier — so
a caller holding the result of `getEntry` on index `i` can assign through
it, replacing element `i` of `mEntryVersion0` in place. -/
def EditListBox.setViaGetEntryV0 (b : EditListBox) (index : Nat)
    (e : EntryVersion0) : EditListBox :=
  { b with mEntryVersion0 := b.mEntryVersion0.set index e }

/-! ## Operations whose bodies are not under `src/` (modelled from the spec) -/

/-- Error from `addEntry`. -/
inductive AddError where
  | layoutConflict
  deriving DecidableEq, Repr

/-- Modelled from the spec: `EditListBox::addEntry(const EntryVersion0&)`
(declared `editbox.hpp` line 50; body in `editbox.cpp`, not under `src/`).
Appends the entry to the store; fails with *layout-conflict* when the
store already holds entries of the other (64-bit) layout, leaving the
store unchanged; on the first successful append sets the box version
to 0.  Returned as (state after the call, error if any). -/
def EditListBox.addEntryV0 (b : EditListBox) (e : EntryVersion0) :
    EditListBox × Option AddError :=
  if b.mEntryVersion1.isEmpty then
    ({ b with
        mEntryVersion0 := b.mEntryVersion0 ++ [e],
        version := if b.mEntryVersion0.isEmpty then 0 else b.version },
     none)
  else
    (b, some .layoutConflict)

/-- Modelled from the spec: `EditListBox::addEntry(const EntryVersion1&)`
(declared `editbox.hpp` line 54; body in `editbox.cpp`, not under `src/`).
Appends the entry to the store; fails with *layout-conflict* when the
store already holds entries of the other (32-bit) layout, leaving the
store unchanged; on the first successful append sets the box version
to 1. -/
def EditListBox.addEntryV1 (b : EditListBox) (e : EntryVersion1) :
    EditListBox × Option AddError :=
  if b.mEntryVersion0.isEmpty then
    ({ b with
        mEntryVersion1 := b.mEntryVersion1 ++ [e],
        version := if b.mEntryVersion1.isEmpty then 1 else b.version },
     none)
  else
    (b, some .layoutConflict)

/-- Modelled from the spec: `EditListBox::numEntry()` (declared
`editbox.hpp` line 57; body in `editbox.cpp`, not under `src/`).  Returns
the number of entries currently held, regardless of layout. -/
def EditListBox.numEntry (b : EditListBox) : Nat :=
  b.mEntryVersion0.length + b.mEntryVersion1.length

/-! ## Serialization (modelled from the spec, §4.1–§4.2 and §6) -/

/-- Parse-time and write-time stream errors named by the spec. -/
inductive ParseError where
  | truncatedInput
  | unsupportedVersion
  | malformedBox
  deriving DecidableEq, Repr

/-- Serialized form of a version-0 entry: `segmentDuration` (unsigned
32-bit), `mediaTime` (signed 32-bit), `mediaRateInteger` and
`mediaRateFraction` (unsigned 16-bit each), in that order. -/
def writeEntryV0 (e : EntryVersion0) : List Nat :=
  writeN 4 e.mSegmentDuration ++ writeIntN 4 e.mMediaTime ++
  writeN 2 e.mMediaRateInteger ++ writeN 2 e.mMediaRateFraction

/-- Serialized form of a version-1 entry: `segmentDuration` (unsigned
64-bit), `mediaTime` (signed 64-bit), `mediaRateInteger` and
`mediaRateFraction` (unsigned 16-bit each), in that order. -/
def writeEntryV1 (e : EntryVersion1) : List Nat :=
  writeN 8 e.mSegmentDuration ++ writeIntN 8 e.mMediaTime ++
  writeN 2 e.mMediaRateInteger ++ writeN 2 e.mMediaRateFraction

/-- Modelled from the spec: the store's `write` (§4.1 Serialization; body
in `editbox.cpp`, not under `src/`).  Writes `count()` as an unsigned
32-bit integer, then each entry of the layout negotiated by the box
version in insertion order. -/
def EditListBox.writeBody (b : EditListBox) : List Nat :=
  writeN 4 b.numEntry ++
  (if b.version = 1 then (b.mEntryVersion1.map writeEntryV1).flatten
   else (b.mEntryVersion0.map writeEntryV0).flatten)

/-- The four-character type code `"elst"`. -/
def elstType : List Nat := [0x65, 0x6C, 0x73, 0x74]

/-- Modelled from the spec: `EditListBox::writeBox` (declared
`editbox.hpp` line 67; body in `editbox.cpp`, not under `src/`).  Writes
the full-box header — 32-bit size (backpatched to the total encoded
length), type `"elst"`, 8-bit version, 24-bit flags — then the store's
body at the layout implied by the version field. -/
def EditListBox.writeBox (b : EditListBox) : List Nat :=
  let body := b.writeBody
  writeN 4 (12 + body.length) ++ elstType ++ writeN 1 b.version ++
  writeN 3 b.flags ++ body

/-- Read one version-0 entry. -/
def readEntryV0 (bs : List Nat) : Option (EntryVersion0 × List Nat) :=
  match readN 4 bs with
  | none => none
  | some (seg, bs) =>
  match readIntN 4 bs with
  | none => none
  | some (mt, bs) =>
  match readN 2 bs with
  | none => none
  | some (ri, bs) =>
  match readN 2 bs with
  | none => none
  | some (rf, bs) =>
    some (⟨seg, mt, ri, rf⟩, bs)

/-- Read one version-1 entry. -/
def readEntryV1 (bs : List Nat) : Option (EntryVersion1 × List Nat) :=
  match readN 8 bs with
  | none => none
  | some (seg, bs) =>
  match readIntN 8 bs with
  | none => none
  | some (mt, bs) =>
  match readN 2 bs with
  | none => none
  | some (ri, bs) =>
  match readN 2 bs with
  | none => none
  | some (rf, bs) =>
    some (⟨seg, mt, ri, rf⟩, bs)

/-- Read exactly `n` version-0 entries. -/
def readEntriesV0 : Nat → List Nat → Option (List EntryVersion0 × List Nat)
  | 0, bs => some ([], bs)
  | n + 1, bs =>
      match readEntryV0 bs with
      | none => none
      | some (e, bs) =>
          match readEntriesV0 n bs with
          | none => none
          | some (es, bs) => some (e :: es, bs)

/-- Read exactly `n` version-1 entries. -/
def readEntriesV1 : Nat → List Nat → Option (List EntryVersion1 × List Nat)
  | 0, bs => some ([], bs)
  | n + 1, bs =>
      match readEntryV1 bs with
      | none => none
      | some (e, bs) =>
          match readEntriesV1 n bs with
          | none => none
          | some (es, bs) => some (e :: es, bs)

/-- Modelled from the spec: `EditListBox::parseBox` (declared
`editbox.hpp` line 71; body in `editbox.cpp`, not under `src/`).  Reads
the full-box header (size, type, version, flags), derives the layout from
the version value (0 → 32-bit, 1 → 64-bit, anything else is
*unsupported-version*), then reads the 32-bit entry count and exactly that
many entries from the box's declared byte range, failing with
*truncated-input* when the stream or range is exhausted early and with
*malformed-box* when the declared range is violated.  Returns the parsed
box and the bytes following its declared range. -/
def EditListBox.parseBox (input : List Nat) :
    Except ParseError (EditListBox × List Nat) :=
  match readN 4 input with
  | none => .error .truncatedInput
  | some (size, r1) =>
  match readN 4 r1 with
  | none => .error .truncatedInput
  | some (_, r2) =>
  match readN 1 r2 with
  | none => .error .truncatedInput
  | some (version, r3) =>
  match readN 3 r3 with
  | none => .error .truncatedInput
  | some (flags, r4) =>
  if version ≥ 2 then .error .unsupportedVersion
  else if size < 12 then .error .malformedBox
  else if r4.length < size - 12 then .error .truncatedInput
  else
    let body := r4.take (size - 12)
    let rest := r4.drop (size - 12)
    match readN 4 body with
    | none => .error .truncatedInput
    | some (count, bs) =>
      if version = 0 then
        match readEntriesV0 count bs with
        | none => .error .truncatedInput
        | some (es, leftover) =>
            if leftover = [] then
              .ok ({ version := 0, flags := flags,
                     mEntryVersion0 := es, mEntryVersion1 := [] }, rest)
            else .error .malformedBox
      else
        match readEntriesV1 count bs with
        | none => .error .truncatedInput
        | some (es, leftover) =>
            if leftover = [] then
              .ok ({ version := 1, flags := flags,
                     mEntryVersion0 := [], mEntryVersion1 := es }, rest)
            else .error .malformedBox

/-! ## The `EditBox` container (`editbox.hpp` lines 101–124) -/

/-- State of an `EditBox` (`edts` container, `editbox.hpp` lines 101–124):
at most one owned `EditListBox` (line 123). -/
structure EditBox where
  mEditListBox : Option EditListBox
  deriving DecidableEq, Repr

/-- `EditBox()` constructor: no edit list box set. -/
def EditBox.init : EditBox := { mEditListBox := none }

/-- `EditBox::setEditListBox` (declared `editbox.hpp` line 116): replaces
any previously owned `EditListBox`. -/
def EditBox.setEditListBox (b : EditBox) (elb : EditListBox) : EditBox :=
  { mEditListBox := some elb }

/-- `EditBox::getEditListBox` (declared `editbox.hpp` line 120): read-only
access to the owned box, absent when none is set. -/
def EditBox.getEditListBox (b : EditBox) : Option EditListBox :=
  b.mEditListBox

/-- The four-character type code `"edts"`. -/
def edtsType : List Nat := [0x65, 0x64, 0x74, 0x73]

/-- Modelled from the spec: `EditBox::writeBox` (declared `editbox.hpp`
line 109; body in `editbox.cpp`, not under `src/`).  Writes its own box
header (32-bit size, type `"edts"`), then the nested `elst` sub-box when
an `EditListBox` is present; header only when absent. -/
def EditBox.writeBox (b : EditBox) : List Nat :=
  let body := match b.mEditListBox with
    | some elb => elb.writeBox
    | none => []
  writeN 4 (8 + body.length) ++ edtsType ++ body

/-- Modelled from the spec: the child loop of `EditBox::parseBox` — read
child box headers inside the container's range; a child of type `"elst"`
is parsed as an `EditListBox` and stored, any other child is skipped past
its declared size; a child header that cannot be parsed or whose declared
size exceeds the range is *malformed-box*.  `fuel` bounds the iteration
by the byte length of the range. -/
def parseChildren : Nat → List Nat → Option EditListBox →
    Except ParseError (Option EditListBox)
  | _, [], acc => .ok acc
  | 0, _ :: _, _ => .error .malformedBox
  | fuel + 1, bs, acc =>
      match readN 4 bs with
      | none => .error .malformedBox
      | some (csize, r1) =>
      match readN 4 r1 with
      | none => .error .malformedBox
      | some (ctype, _) =>
      if csize < 8 ∨ bs.length < csize then .error .malformedBox
      else if ctype = 0x656C7374 then
        match EditListBox.parseBox bs with
        | .error e => .error e
        | .ok (elb, rest) => parseChildren fuel rest (some elb)
      else
        parseChildren fuel (bs.drop csize) acc

/-- Modelled from the spec: `EditBox::parseBox` (declared `editbox.hpp`
line 112; body in `editbox.cpp`, not under `src/`).  Reads its own header
to establish the byte range, then scans child boxes inside that range,
keeping the parsed `elst` child if one occurs. -/
def EditBox.parseBox (input : List Nat) :
    Except ParseError (EditBox × List Nat) :=
  match readN 4 input with
  | none => .error .truncatedInput
  | some (size, r1) =>
  match readN 4 r1 with
  | none => .error .truncatedInput
  | some (_, r2) =>
  if size < 8 then .error .malformedBox
  else if r2.length < size - 8 then .error .truncatedInput
  else
    let body := r2.take (size - 8)
    let rest := r2.drop (size - 8)
    match parseChildren body.length body none with
    | .error e => .error e
    | .ok elb => .ok ({ mEditListBox := elb }, rest)

/-! ## Remaining definitions used by the theorems -/

/-- Iterate `addEntry` over a list of version-0 entries, stopping at the
first error (as a sequence of C++ `addEntry` calls would throw there). -/
def addAllV0 (b : EditListBox) : List EntryVersion0 → EditListBox × Option AddError
  | [] => (b, none)
  | e :: es =>
      match b.addEntryV0 e with
      | (b2, none) => addAllV0 b2 es
      | (b2, some err) => (b2, some err)

/-- Iterate `addEntry` over a list of version-1 entries, stopping at the
first error. -/
def addAllV1 (b : EditListBox) : List EntryVersion1 → EditListBox × Option AddError
  | [] => (b, none)
  | e :: es =>
      match b.addEntryV1 e with
      | (b2, none) => addAllV1 b2 es
      | (b2, some err) => (b2, some err)

/-- States of an `EditListBox` whose fields fit the C++ member types and
that satisfy the single-layout invariant, with the total encoded size
within the 32-bit size field.  Every box reachable by `addEntry` calls
with in-range field values satisfies this. -/
def EditListBox.WellFormed (b : EditListBox) : Prop :=
  b.flags < 2 ^ 24 ∧
  ((b.version = 0 ∧ b.mEntryVersion1 = [] ∧ (∀ e ∈ b.mEntryVersion0, e.Valid) ∧
      16 + 12 * b.mEntryVersion0.length < 2 ^ 32) ∨
   (b.version = 1 ∧ b.mEntryVersion0 = [] ∧ (∀ e ∈ b.mEntryVersion1, e.Valid) ∧
      16 + 20 * b.mEntryVersion1.length < 2 ^ 32))

instance (b : EditListBox) : Decidable b.WellFormed := by
  unfold EditListBox.WellFormed; infer_instance

instance {ε α : Type} [DecidableEq ε] [DecidableEq α] : DecidableEq (Except ε α)
  | .error e1, .error e2 =>
      if h : e1 = e2 then .isTrue (by rw [h])
      else .isFalse (fun hc => h (by injection hc))
  | .error _, .ok _ => .isFalse (fun hc => Except.noConfusion hc)
  | .ok _, .error _ => .isFalse (fun hc => Except.noConfusion hc)
  | .ok a1, .ok a2 =>
      if h : a1 = a2 then .isTrue (by rw [h])
      else .isFalse (fun hc => h (by injection hc))

/-! ## Theorems: byte-level primitives -/

theorem writeN_length (k v : Nat) : (writeN k v).length = k := by
  induction k generalizing v with
  | zero => rfl
  | succ k ih => simp [writeN, ih]

theorem readN_writeN_mod (k : Nat) (v : Nat) (rest : List Nat) :
    readN k (writeN k v ++ rest) = some (v % 256 ^ k, rest) := by
  induction k generalizing v with
  | zero => simp [writeN, readN, Nat.mod_one]
  | succ k ih =>
      show readN (k + 1) ((v / 256 ^ k) % 256 :: (writeN k v ++ rest)) = _
      simp only [readN, ih]
      simp only [Option.some.injEq, Prod.mk.injEq, and_true]
      rw [pow_succ, Nat.mod_mul]
      ring

theorem readN_writeN (k : Nat) (v : Nat) (rest : List Nat) (h : v < 256 ^ k) :
    readN k (writeN k v ++ rest) = some (v, rest) := by
  rw [readN_writeN_mod, Nat.mod_eq_of_lt h]

theorem writeIntN_length (k : Nat) (t : Int) : (writeIntN k t).length = k :=
  writeN_length _ _

theorem readIntN_writeIntN (k : Nat) (t : Int) (rest : List Nat)
    (hlo : -(256 ^ k / 2 : Int) ≤ t) (hhi : 2 * t < (256 : Int) ^ k) :
    readIntN k (writeIntN k t ++ rest) = some (t, rest) := by
  have hk : (0 : Int) < (256 : Int) ^ k := by positivity
  have hmodlt : t % ((256 : Int) ^ k) < (256 : Int) ^ k := Int.emod_lt_of_pos t hk
  have hmodge : (0 : Int) ≤ t % ((256 : Int) ^ k) := Int.emod_nonneg t (by positivity)
  have htn : ((t % ((256 : Int) ^ k)).toNat : Int) = t % ((256 : Int) ^ k) :=
    Int.toNat_of_nonneg hmodge
  have hlt : (t % ((256 : Int) ^ k)).toNat < 256 ^ k := by
    have : ((t % ((256 : Int) ^ k)).toNat : Int) < ((256 ^ k : Nat) : Int) := by
      rw [htn]; push_cast; exact hmodlt
    exact_mod_cast this
  unfold readIntN writeIntN
  rw [readN_writeN _ _ _ hlt]
  simp only [Option.some.injEq, Prod.mk.injEq, and_true]
  unfold fromTwos
  have hcast : ((256 ^ k : Nat) : Int) = (256 : Int) ^ k := by push_cast; ring
  rcases le_or_lt 0 t with hpos | hneg
  · have ht : t % ((256 : Int) ^ k) = t := Int.emod_eq_of_lt hpos (by omega)
    rw [if_pos]
    · rw [htn, ht]
    · have : ((t % ((256 : Int) ^ k)).toNat : Int) = t := by rw [htn, ht]
      have h2 : (2 : Int) * ((t % ((256 : Int) ^ k)).toNat : Int) < (256 : Int) ^ k := by
        rw [this]; exact hhi
      have := h2
      rw [← hcast] at this
      exact_mod_cast this
  · have ht : t % ((256 : Int) ^ k) = t + (256 : Int) ^ k := by
      have : (t + (256 : Int) ^ k) % ((256 : Int) ^ k) = t % ((256 : Int) ^ k) := by
        simp [Int.add_mul_emod_self_left]
      rw [← this]
      refine Int.emod_eq_of_lt (by omega) (by omega)
    rw [if_neg]
    · rw [htn, ht]; ring
    · intro hcontra
      have h2 : (2 : Int) * ((t % ((256 : Int) ^ k)).toNat : Int) < (256 : Int) ^ k := by
        have := hcontra
        rw [← hcast]
        exact_mod_cast this
      rw [htn, ht] at h2
      omega


/-! ## Theorems: entry store operations -/

theorem addEntryV0_conflict (b : EditListBox) (e : EntryVersion0)
    (h : b.mEntryVersion1 ≠ []) :
    b.addEntryV0 e = (b, some AddError.layoutConflict) := by
  unfold EditListBox.addEntryV0
  rw [if_neg]
  simpa [List.isEmpty_iff] using h

theorem addEntryV1_conflict (b : EditListBox) (e : EntryVersion1)
    (h : b.mEntryVersion0 ≠ []) :
    b.addEntryV1 e = (b, some AddError.layoutConflict) := by
  unfold EditListBox.addEntryV1
  rw [if_neg]
  simpa [List.isEmpty_iff] using h

theorem addEntryV0_ok (b : EditListBox) (e : EntryVersion0)
    (h : b.mEntryVersion1 = []) :
    b.addEntryV0 e =
      ({ b with
          mEntryVersion0 := b.mEntryVersion0 ++ [e],
          version := if b.mEntryVersion0.isEmpty then 0 else b.version },
       none) := by
  unfold EditListBox.addEntryV0
  rw [if_pos]
  simp [List.isEmpty_iff, h]

theorem addEntryV1_ok (b : EditListBox) (e : EntryVersion1)
    (h : b.mEntryVersion0 = []) :
    b.addEntryV1 e =
      ({ b with
          mEntryVersion1 := b.mEntryVersion1 ++ [e],
          version := if b.mEntryVersion1.isEmpty then 1 else b.version },
       none) := by
  unfold EditListBox.addEntryV1
  rw [if_pos]
  simp [List.isEmpty_iff, h]

theorem addAllV0_ok (es : List EntryVersion0) (b : EditListBox)
    (h : b.mEntryVersion1 = []) :
    (addAllV0 b es).2 = none ∧
    (addAllV0 b es).1.mEntryVersion0.length = b.mEntryVersion0.length + es.length ∧
    (addAllV0 b es).1.mEntryVersion1 = [] := by
  induction es generalizing b with
  | nil => simp [addAllV0, h]
  | cons e es ih =>
      unfold addAllV0
      rw [addEntryV0_ok b e h]
      have := ih { b with
          mEntryVersion0 := b.mEntryVersion0 ++ [e],
          version := if b.mEntryVersion0.isEmpty then 0 else b.version } (by simpa using h)
      simpa [Nat.add_assoc, Nat.add_comm 1 es.length] using this

theorem addAllV1_ok (es : List EntryVersion1) (b : EditListBox)
    (h : b.mEntryVersion0 = []) :
    (addAllV1 b es).2 = none ∧
    (addAllV1 b es).1.mEntryVersion1.length = b.mEntryVersion1.length + es.length ∧
    (addAllV1 b es).1.mEntryVersion0 = [] := by
  induction es generalizing b with
  | nil => simp [addAllV1, h]
  | cons e es ih =>
      unfold addAllV1
      rw [addEntryV1_ok b e h]
      have := ih { b with
          mEntryVersion1 := b.mEntryVersion1 ++ [e],
          version := if b.mEntryVersion1.isEmpty then 1 else b.version } (by simpa using h)
      simpa [Nat.add_assoc, Nat.add_comm 1 es.length] using this

/-- C2: appending an entry of the other layout to a non-empty store fails
with *layout-conflict*, and the store's previously held entries (indeed
its whole state) remain unchanged. -/
theorem claim_addEntry_layout_conflict_atomic (b : EditListBox)
    (e0 : EntryVersion0) (e1 : EntryVersion1) :
    (b.mEntryVersion1 ≠ [] → b.addEntryV0 e0 = (b, some AddError.layoutConflict)) ∧
    (b.mEntryVersion0 ≠ [] → b.addEntryV1 e1 = (b, some AddError.layoutConflict)) :=
  ⟨fun h => addEntryV0_conflict b e0 h, fun h => addEntryV1_conflict b e1 h⟩

/-- Witness for C2 at a concrete store holding one 32-bit and one
64-bit-layout candidate. -/
theorem claim_addEntry_layout_conflict_atomic_witness :
    (EditListBox.mk 1 0 [] [⟨100, 0, 1, 0⟩]).addEntryV0 ⟨1000, 0, 1, 0⟩ =
      (EditListBox.mk 1 0 [] [⟨100, 0, 1, 0⟩], some AddError.layoutConflict) ∧
    (EditListBox.mk 0 0 [⟨1000, 0, 1, 0⟩] []).addEntryV1 ⟨100, 0, 1, 0⟩ =
      (EditListBox.mk 0 0 [⟨1000, 0, 1, 0⟩] [], some AddError.layoutConflict) :=
  ⟨(claim_addEntry_layout_conflict_atomic (EditListBox.mk 1 0 [] [⟨100, 0, 1, 0⟩])
      ⟨1000, 0, 1, 0⟩ ⟨100, 0, 1, 0⟩).1 (by decide),
   (claim_addEntry_layout_conflict_atomic (EditListBox.mk 0 0 [⟨1000, 0, 1, 0⟩] [])
      ⟨1000, 0, 1, 0⟩ ⟨100, 0, 1, 0⟩).2 (by decide)⟩

/-- C5: starting from the empty box, N `addEntry` calls of a consistent
layout (all version 0, or all version 1) all succeed and `numEntry()`
then returns N. -/
theorem claim_numEntry_counts_appends (es0 : List EntryVersion0)
    (es1 : List EntryVersion1) :
    ((addAllV0 EditListBox.init es0).2 = none ∧
      (addAllV0 EditListBox.init es0).1.numEntry = es0.length) ∧
    ((addAllV1 EditListBox.init es1).2 = none ∧
      (addAllV1 EditListBox.init es1).1.numEntry = es1.length) := by
  obtain ⟨h1, h2, h3⟩ := addAllV0_ok es0 EditListBox.init rfl
  obtain ⟨g1, g2, g3⟩ := addAllV1_ok es1 EditListBox.init rfl
  refine ⟨⟨h1, ?_⟩, ⟨g1, ?_⟩⟩
  · unfold EditListBox.numEntry
    rw [h3, h2]
    simp [EditListBox.init]
  · unfold EditListBox.numEntry
    rw [g3, g2]
    simp [EditListBox.init]

/-- C4: `getEntry` at any index at or past `numEntry()` fails with the
*out-of-range* error, for either entry type. -/
theorem claim_getEntry_out_of_range (b : EditListBox) (i : Nat)
    (h : b.numEntry ≤ i) :
    b.getEntryV0 i = .error .outOfRange ∧ b.getEntryV1 i = .error .outOfRange := by
  unfold EditListBox.numEntry at h
  unfold EditListBox.getEntryV0 EditListBox.getEntryV1
  rw [List.getElem?_eq_none (by omega), List.getElem?_eq_none (by omega)]
  exact ⟨rfl, rfl⟩

/-- Witness for C4: a box holding one entry, queried at index
`numEntry() = 1`. -/
theorem claim_getEntry_out_of_range_witness :
    (EditListBox.mk 0 0 [⟨1000, 0, 1, 0⟩] []).getEntryV0 1 = .error .outOfRange ∧
    (EditListBox.mk 0 0 [⟨1000, 0, 1, 0⟩] []).getEntryV1 1 = .error .outOfRange :=
  claim_getEntry_out_of_range (EditListBox.mk 0 0 [⟨1000, 0, 1, 0⟩] []) 1 (by decide)

/-- C10: the templated `getEntry<T>` has a defined result exactly when the
template argument `T` is one of the two entry structs; for any other `T`
control falls off the end of the function and there is no defined
result. -/
theorem claim_getEntry_total_iff (b : EditListBox) (T : EntryTypeArg) (i : Nat) :
    (b.getEntryAt T i).isSome ↔
      (T = EntryTypeArg.entryVersion0 ∨ T = EntryTypeArg.entryVersion1) := by
  cases T <;> simp [EditListBox.getEntryAt]

/-- Witness for C10 at concrete template arguments: defined for the two
entry structs, undefined for any other type. -/
theorem claim_getEntry_total_iff_witness :
    ((EditListBox.init.getEntryAt EntryTypeArg.otherType 0).isSome ↔
      (EntryTypeArg.otherType = EntryTypeArg.entryVersion0 ∨
        EntryTypeArg.otherType = EntryTypeArg.entryVersion1)) ∧
    ((EditListBox.init.getEntryAt EntryTypeArg.entryVersion0 0).isSome ↔
      (EntryTypeArg.entryVersion0 = EntryTypeArg.entryVersion0 ∨
        EntryTypeArg.entryVersion0 = EntryTypeArg.entryVersion1)) :=
  ⟨claim_getEntry_total_iff EditListBox.init EntryTypeArg.otherType 0,
   claim_getEntry_total_iff EditListBox.init EntryTypeArg.entryVersion0 0⟩

/-- C1 counterexample: on a store whose active layout is version 1 (one
64-bit entry), `getEntry<EntryVersion0>(0)` does fail, but with the
*out-of-range* error thrown by `mEntryVersion0.at(0)` on the empty
version-0 vector — not with a *layout-mismatch* error as claimed. -/
theorem claim_getEntry_mismatch_counterexample :
    (EditListBox.mk 1 0 [] [⟨100, 0, 1, 0⟩]).getEntryV0 0 ≠
      Except.error GetError.layoutMismatch ∧
    (EditListBox.mk 1 0 [] [⟨100, 0, 1, 0⟩]).getEntryV0 0 =
      Except.error GetError.outOfRange := by
  decide

/-- C1 amended: `getEntry` requesting the layout that is not the store's
active one fails with the *out-of-range* error (the bounds-checked
`std::vector::at` on that layout's empty vector), and never returns
misinterpreted memory — any value it does return is a genuine element of
the vector of the requested layout. -/
theorem claim_getEntry_nonactive_fails_safely (b : EditListBox) (i : Nat) :
    (b.mEntryVersion0 = [] → b.getEntryV0 i = .error .outOfRange) ∧
    (b.mEntryVersion1 = [] → b.getEntryV1 i = .error .outOfRange) ∧
    (∀ e, b.getEntryV0 i = .ok e → b.mEntryVersion0[i]? = some e) ∧
    (∀ e, b.getEntryV1 i = .ok e → b.mEntryVersion1[i]? = some e) := by
  unfold EditListBox.getEntryV0 EditListBox.getEntryV1
  refine ⟨?_, ?_, ?_, ?_⟩
  · intro h; rw [h]; rfl
  · intro h; rw [h]; rfl
  · intro e he
    cases hm : b.mEntryVersion0[i]? with
    | none => rw [hm] at he; exact Except.noConfusion he
    | some x => rw [hm] at he; rw [Except.ok.injEq] at he; rw [he]
  · intro e he
    cases hm : b.mEntryVersion1[i]? with
    | none => rw [hm] at he; exact Except.noConfusion he
    | some x => rw [hm] at he; rw [Except.ok.injEq] at he; rw [he]

/-- Witness for the amended C1 at concrete single-layout stores. -/
theorem claim_getEntry_nonactive_fails_safely_witness :
    (EditListBox.mk 1 0 [] [⟨100, 0, 1, 0⟩]).getEntryV0 5 = .error .outOfRange ∧
    (EditListBox.mk 0 0 [⟨1000, 0, 1, 0⟩] []).getEntryV1 5 = .error .outOfRange ∧
    (EditListBox.mk 0 0 [⟨1000, 0, 1, 0⟩] []).mEntryVersion0[0]? = some ⟨1000, 0, 1, 0⟩ ∧
    (EditListBox.mk 1 0 [] [⟨100, 0, 1, 0⟩]).mEntryVersion1[0]? = some ⟨100, 0, 1, 0⟩ :=
  ⟨(claim_getEntry_nonactive_fails_safely (EditListBox.mk 1 0 [] [⟨100, 0, 1, 0⟩]) 5).1 rfl,
   (claim_getEntry_nonactive_fails_safely (EditListBox.mk 0 0 [⟨1000, 0, 1, 0⟩] []) 5).2.1 rfl,
   (claim_getEntry_nonactive_fails_safely (EditListBox.mk 0 0 [⟨1000, 0, 1, 0⟩] []) 0).2.2.1
     ⟨1000, 0, 1, 0⟩ (by decide),
   (claim_getEntry_nonactive_fails_safely (EditListBox.mk 1 0 [] [⟨100, 0, 1, 0⟩]) 0).2.2.2
     ⟨100, 0, 1, 0⟩ (by decide)⟩

/-- C9 counterexample: `getEntry` is a `const` accessor, yet assigning
through the non-const reference it returns (its C-style cast discards
`const`) changes a stored entry with no `addEntry` call: the claim that
const accessors do not permit mutation fails at this input. -/
theorem claim_const_accessor_immutable_counterexample :
    EditListBox.setViaGetEntryV0 (EditListBox.mk 0 0 [⟨1000, 0, 1, 0⟩] []) 0
        ⟨500, -1, 1, 0⟩ ≠
      EditListBox.mk 0 0 [⟨1000, 0, 1, 0⟩] [] := by
  decide

/-- C9 amended: a populated box's entry contents can be changed not only
through explicit append but also through the non-const reference returned
by the `const` accessor `getEntry` (its `(T&)` cast discards the `const`
qualifier): assigning through `getEntry<EntryVersion0>(i)`'s result
replaces exactly stored entry `i`, leaving every other entry and the
header fields unchanged. -/
theorem claim_mutation_via_getEntry_reference (b : EditListBox) (i : Nat)
    (e : EntryVersion0) (h : i < b.mEntryVersion0.length) :
    (b.setViaGetEntryV0 i e).mEntryVersion0[i]? = some e ∧
    (∀ j, j ≠ i → (b.setViaGetEntryV0 i e).mEntryVersion0[j]? = b.mEntryVersion0[j]?) ∧
    (b.setViaGetEntryV0 i e).mEntryVersion1 = b.mEntryVersion1 ∧
    (b.setViaGetEntryV0 i e).version = b.version ∧
    (b.setViaGetEntryV0 i e).flags = b.flags := by
  unfold EditListBox.setViaGetEntryV0
  exact ⟨List.getElem?_set_self h,
         fun j hj => List.getElem?_set_ne (by omega),
         rfl, rfl, rfl⟩

/-- Witness for the amended C9: overwriting entry 0 of a two-entry box
through the `getEntry` reference replaces entry 0 and keeps entry 1. -/
theorem claim_mutation_via_getEntry_reference_witness :
    (EditListBox.setViaGetEntryV0
        (EditListBox.mk 0 0 [⟨1000, 0, 1, 0⟩, ⟨500, -1, 1, 0⟩] []) 0
        ⟨7, 3, 1, 0⟩).mEntryVersion0[0]? = some ⟨7, 3, 1, 0⟩ ∧
    (EditListBox.setViaGetEntryV0
        (EditListBox.mk 0 0 [⟨1000, 0, 1, 0⟩, ⟨500, -1, 1, 0⟩] []) 0
        ⟨7, 3, 1, 0⟩).mEntryVersion0[1]? =
      (EditListBox.mk 0 0 [⟨1000, 0, 1, 0⟩, ⟨500, -1, 1, 0⟩] []).mEntryVersion0[1]? :=
  ⟨(claim_mutation_via_getEntry_reference
      (EditListBox.mk 0 0 [⟨1000, 0, 1, 0⟩, ⟨500, -1, 1, 0⟩] []) 0 ⟨7, 3, 1, 0⟩
      (by decide)).1,
   (claim_mutation_via_getEntry_reference
      (EditListBox.mk 0 0 [⟨1000, 0, 1, 0⟩, ⟨500, -1, 1, 0⟩] []) 0 ⟨7, 3, 1, 0⟩
      (by decide)).2.1 1 (by decide)⟩

/-! ## Theorems: serialization round trip -/

theorem writeEntryV0_length (e : EntryVersion0) : (writeEntryV0 e).length = 12 := by
  simp [writeEntryV0, writeN_length, writeIntN, writeN_length]

theorem writeEntryV1_length (e : EntryVersion1) : (writeEntryV1 e).length = 20 := by
  simp [writeEntryV1, writeN_length, writeIntN, writeN_length]

theorem readEntryV0_writeEntryV0 (e : EntryVersion0) (rest : List Nat)
    (h : e.Valid) :
    readEntryV0 (writeEntryV0 e ++ rest) = some (e, rest) := by
  obtain ⟨h1, h2, h3, h4, h5⟩ := h
  unfold readEntryV0 writeEntryV0
  rw [List.append_assoc, List.append_assoc, List.append_assoc]
  rw [readN_writeN 4 _ _ (by norm_num; omega)]
  dsimp only
  rw [readIntN_writeIntN 4 _ _ (by norm_num; omega) (by norm_num; omega)]
  dsimp only
  rw [readN_writeN 2 _ _ (by norm_num; omega)]
  dsimp only
  rw [readN_writeN 2 _ _ (by norm_num; omega)]

theorem readEntryV1_writeEntryV1 (e : EntryVersion1) (rest : List Nat)
    (h : e.Valid) :
    readEntryV1 (writeEntryV1 e ++ rest) = some (e, rest) := by
  obtain ⟨h1, h2, h3, h4, h5⟩ := h
  unfold readEntryV1 writeEntryV1
  rw [List.append_assoc, List.append_assoc, List.append_assoc]
  rw [readN_writeN 8 _ _ (by norm_num; omega)]
  dsimp only
  rw [readIntN_writeIntN 8 _ _ (by norm_num; omega) (by norm_num; omega)]
  dsimp only
  rw [readN_writeN 2 _ _ (by norm_num; omega)]
  dsimp only
  rw [readN_writeN 2 _ _ (by norm_num; omega)]

theorem readEntriesV0_write (es : List EntryVersion0) (rest : List Nat)
    (h : ∀ e ∈ es, e.Valid) :
    readEntriesV0 es.length ((es.map writeEntryV0).flatten ++ rest) =
      some (es, rest) := by
  induction es with
  | nil => simp [readEntriesV0]
  | cons e es ih =>
      show readEntriesV0 (es.length + 1)
        ((writeEntryV0 e ++ (es.map writeEntryV0).flatten) ++ rest) = _
      rw [List.append_assoc]
      unfold readEntriesV0
      rw [readEntryV0_writeEntryV0 e _ (h e (by simp))]
      dsimp only
      rw [ih (fun x hx => h x (by simp [hx]))]

theorem readEntriesV1_write (es : List EntryVersion1) (rest : List Nat)
    (h : ∀ e ∈ es, e.Valid) :
    readEntriesV1 es.length ((es.map writeEntryV1).flatten ++ rest) =
      some (es, rest) := by
  induction es with
  | nil => simp [readEntriesV1]
  | cons e es ih =>
      show readEntriesV1 (es.length + 1)
        ((writeEntryV1 e ++ (es.map writeEntryV1).flatten) ++ rest) = _
      rw [List.append_assoc]
      unfold readEntriesV1
      rw [readEntryV1_writeEntryV1 e _ (h e (by simp))]
      dsimp only
      rw [ih (fun x hx => h x (by simp [hx]))]

theorem flatten_map_length_const {α : Type} (f : α → List Nat) (L : Nat)
    (hf : ∀ a, (f a).length = L) (es : List α) :
    ((es.map f).flatten).length = L * es.length := by
  induction es with
  | nil => simp
  | cons a es ih =>
      simp only [List.map_cons, List.flatten_cons, List.length_append, hf, ih,
        List.length_cons]
      ring

theorem flatten_blocks_get {α : Type} (f : α → List Nat) (L : Nat)
    (hf : ∀ a, (f a).length = L) :
    ∀ (es : List α) (i : Nat) (e : α), es[i]? = some e →
      (((es.map f).flatten).drop (L * i)).take L = f e := by
  intro es
  induction es with
  | nil => intro i e he; simp at he
  | cons a es ih =>
      intro i e he
      cases i with
      | zero =>
          simp only [List.getElem?_cons_zero, Option.some.injEq] at he
          subst he
          show ((f a ++ (es.map f).flatten).drop (L * 0)).take L = f a
          rw [Nat.mul_zero, List.drop_zero, ← hf a, List.take_left]
      | succ i =>
          simp only [List.getElem?_cons_succ] at he
          show ((f a ++ (es.map f).flatten).drop (L * (i + 1))).take L = f e
          have harith : L * (i + 1) = (f a).length + L * i := by rw [hf a]; ring
          rw [harith, List.drop_append]
          exact ih i e he

theorem readN_elst (r : List Nat) : readN 4 (elstType ++ r) = some (0x656C7374, r) := by
  show readN 4 (0x65 :: 0x6C :: 0x73 :: 0x74 :: r) = some (0x656C7374, r)
  simp [readN]

theorem writeBody_v0 (flags : Nat) (es0 : List EntryVersion0) :
    EditListBox.writeBody ⟨0, flags, es0, []⟩ =
      writeN 4 es0.length ++ (es0.map writeEntryV0).flatten := by
  simp [EditListBox.writeBody, EditListBox.numEntry]

theorem writeBody_v1 (flags : Nat) (es1 : List EntryVersion1) :
    EditListBox.writeBody ⟨1, flags, [], es1⟩ =
      writeN 4 es1.length ++ (es1.map writeEntryV1).flatten := by
  simp [EditListBox.writeBody, EditListBox.numEntry]

theorem writeBox_eq (b : EditListBox) :
    b.writeBox = writeN 4 (12 + b.writeBody.length) ++ elstType ++
      writeN 1 b.version ++ writeN 3 b.flags ++ b.writeBody := rfl

theorem parse_write_v0 (flags : Nat) (es0 : List EntryVersion0)
    (hflags : flags < 2 ^ 24) (hval : ∀ e ∈ es0, e.Valid)
    (hsz : 16 + 12 * es0.length < 2 ^ 32) :
    EditListBox.parseBox (EditListBox.writeBox ⟨0, flags, es0, []⟩) =
      .ok (⟨0, flags, es0, []⟩, []) := by
  have hflat : ((es0.map writeEntryV0).flatten).length = 12 * es0.length :=
    flatten_map_length_const writeEntryV0 12 writeEntryV0_length es0
  have hbody := writeBody_v0 flags es0
  have hblen : (EditListBox.writeBody ⟨0, flags, es0, []⟩).length =
      4 + 12 * es0.length := by
    rw [hbody, List.length_append, writeN_length, hflat]
  have hr4 : ((writeN 4 es0.length ++ (es0.map writeEntryV0).flatten)).length =
      4 + 12 * es0.length := by
    rw [List.length_append, writeN_length, hflat]
  rw [writeBox_eq, hblen, hbody]
  have hsize : 12 + (4 + 12 * es0.length) = 16 + 12 * es0.length := by omega
  rw [hsize]
  unfold EditListBox.parseBox
  simp only [List.append_assoc]
  rw [readN_writeN 4 _ _ (by norm_num at hsz ⊢; omega)]
  dsimp only
  rw [readN_elst]
  dsimp only
  rw [readN_writeN 1 _ _ (by norm_num)]
  dsimp only
  rw [readN_writeN 3 _ _ (by norm_num at hflags ⊢; omega)]
  dsimp only
  rw [if_neg (by omega)]
  rw [if_neg (by omega)]
  rw [if_neg (by rw [List.length_append, writeN_length, hflat]; omega)]
  have htake : (writeN 4 es0.length ++ (es0.map writeEntryV0).flatten).take
      (16 + 12 * es0.length - 12) = writeN 4 es0.length ++ (es0.map writeEntryV0).flatten := by
    have h1 : 16 + 12 * es0.length - 12 =
        (writeN 4 es0.length ++ (es0.map writeEntryV0).flatten).length := by
      rw [hr4]; omega
    rw [h1, List.take_length]
  have hdrop : (writeN 4 es0.length ++ (es0.map writeEntryV0).flatten).drop
      (16 + 12 * es0.length - 12) = [] := by
    have h1 : 16 + 12 * es0.length - 12 =
        (writeN 4 es0.length ++ (es0.map writeEntryV0).flatten).length := by
      rw [hr4]; omega
    rw [h1, List.drop_length]
  rw [htake, hdrop]
  rw [readN_writeN 4 _ _ (by norm_num at hsz ⊢; omega)]
  dsimp only
  rw [if_pos rfl]
  have hread := readEntriesV0_write es0 [] hval
  rw [List.append_nil] at hread
  rw [hread]
  dsimp only
  rw [if_pos rfl]

theorem parse_write_v1 (flags : Nat) (es1 : List EntryVersion1)
    (hflags : flags < 2 ^ 24) (hval : ∀ e ∈ es1, e.Valid)
    (hsz : 16 + 20 * es1.length < 2 ^ 32) :
    EditListBox.parseBox (EditListBox.writeBox ⟨1, flags, [], es1⟩) =
      .ok (⟨1, flags, [], es1⟩, []) := by
  have hflat : ((es1.map writeEntryV1).flatten).length = 20 * es1.length :=
    flatten_map_length_const writeEntryV1 20 writeEntryV1_length es1
  have hbody := writeBody_v1 flags es1
  have hblen : (EditListBox.writeBody ⟨1, flags, [], es1⟩).length =
      4 + 20 * es1.length := by
    rw [hbody, List.length_append, writeN_length, hflat]
  have hr4 : ((writeN 4 es1.length ++ (es1.map writeEntryV1).flatten)).length =
      4 + 20 * es1.length := by
    rw [List.length_append, writeN_length, hflat]
  rw [writeBox_eq, hblen, hbody]
  have hsize : 12 + (4 + 20 * es1.length) = 16 + 20 * es1.length := by omega
  rw [hsize]
  unfold EditListBox.parseBox
  simp only [List.append_assoc]
  rw [readN_writeN 4 _ _ (by norm_num at hsz ⊢; omega)]
  dsimp only
  rw [readN_elst]
  dsimp only
  rw [readN_writeN 1 _ _ (by norm_num)]
  dsimp only
  rw [readN_writeN 3 _ _ (by norm_num at hflags ⊢; omega)]
  dsimp only
  rw [if_neg (by omega)]
  rw [if_neg (by omega)]
  rw [if_neg (by rw [List.length_append, writeN_length, hflat]; omega)]
  have htake : (writeN 4 es1.length ++ (es1.map writeEntryV1).flatten).take
      (16 + 20 * es1.length - 12) = writeN 4 es1.length ++ (es1.map writeEntryV1).flatten := by
    have h1 : 16 + 20 * es1.length - 12 =
        (writeN 4 es1.length ++ (es1.map writeEntryV1).flatten).length := by
      rw [hr4]; omega
    rw [h1, List.take_length]
  have hdrop : (writeN 4 es1.length ++ (es1.map writeEntryV1).flatten).drop
      (16 + 20 * es1.length - 12) = [] := by
    have h1 : 16 + 20 * es1.length - 12 =
        (writeN 4 es1.length ++ (es1.map writeEntryV1).flatten).length := by
      rw [hr4]; omega
    rw [h1, List.drop_length]
  rw [htake, hdrop]
  rw [readN_writeN 4 _ _ (by norm_num at hsz ⊢; omega)]
  dsimp only
  rw [if_neg (by omega)]
  have hread := readEntriesV1_write es1 [] hval
  rw [List.append_nil] at hread
  rw [hread]
  dsimp only
  rw [if_pos rfl]

theorem parse_write_eq (b : EditListBox) (h : b.WellFormed) :
    EditListBox.parseBox b.writeBox = .ok (b, []) := by
  obtain ⟨ver, flags, es0, es1⟩ := b
  unfold EditListBox.WellFormed at h
  obtain ⟨hflags, hcase⟩ := h
  rcases hcase with ⟨hv, hemp, hval, hsz⟩ | ⟨hv, hemp, hval, hsz⟩
  · dsimp only at hv hemp hval hsz hflags
    subst hv; subst hemp
    exact parse_write_v0 flags es0 hflags hval hsz
  · dsimp only at hv hemp hval hsz hflags
    subst hv; subst hemp
    exact parse_write_v1 flags es1 hflags hval hsz

theorem parse_unsupported_version (s f v : Nat) (rest : List Nat)
    (h2 : 2 ≤ v) (h256 : v < 256) :
    EditListBox.parseBox (writeN 4 s ++ elstType ++ writeN 1 v ++
        writeN 3 f ++ rest) =
      .error .unsupportedVersion := by
  unfold EditListBox.parseBox
  simp only [List.append_assoc]
  rw [readN_writeN_mod 4]
  dsimp only
  rw [readN_elst]
  dsimp only
  rw [readN_writeN 1 _ _ (by norm_num; omega)]
  dsimp only
  rw [readN_writeN_mod 3]
  dsimp only
  rw [if_pos (by omega)]

theorem parseBox_ok_version (input : List Nat) (b : EditListBox)
    (rest : List Nat) (hp : EditListBox.parseBox input = .ok (b, rest)) :
    (b.version = 0 ∧ b.mEntryVersion1 = []) ∨
    (b.version = 1 ∧ b.mEntryVersion0 = []) := by
  unfold EditListBox.parseBox at hp
  repeat' split at hp
  all_goals try exact Except.noConfusion hp
  all_goals try dsimp only at hp
  all_goals repeat' split at hp
  all_goals first
    | exact Except.noConfusion hp
    | (rw [Except.ok.injEq, Prod.mk.injEq] at hp
       obtain ⟨hb, -⟩ := hp
       subst hb
       first
         | exact Or.inl ⟨rfl, rfl⟩
         | exact Or.inr ⟨rfl, rfl⟩)

/-- C3: writing a single-layout box and parsing the result back yields the
identical ordered entry sequence, the same layout (version), and consumes
exactly the written bytes. -/
theorem claim_write_parse_roundtrip (b : EditListBox) (h : b.WellFormed) :
    EditListBox.parseBox b.writeBox = .ok (b, []) :=
  parse_write_eq b h

/-- Witness for C3: the spec's scenario — two version-0 entries
`{1000, 0, 1/0}` and `{500, −1, 1/0}` survive a write/parse round trip. -/
theorem claim_write_parse_roundtrip_witness :
    EditListBox.parseBox (EditListBox.writeBox
        ⟨0, 0, [⟨1000, 0, 1, 0⟩, ⟨500, -1, 1, 0⟩], []⟩) =
      .ok (⟨0, 0, [⟨1000, 0, 1, 0⟩, ⟨500, -1, 1, 0⟩], []⟩, []) :=
  claim_write_parse_roundtrip ⟨0, 0, [⟨1000, 0, 1, 0⟩, ⟨500, -1, 1, 0⟩], []⟩
    (by decide)

/-- C6: the serialized body is exactly the entry count as an unsigned
32-bit integer followed, for each entry in insertion order, by
`segmentDuration` and `mediaTime` at the layout's width (32-bit for
version 0, 64-bit for version 1) and then the two unsigned 16-bit rate
fields, in that fixed order: the bytes at offset `4 + entrySize * i` of
the body are exactly entry `i`'s four fields concatenated. -/
theorem claim_write_body_layout (b : EditListBox) :
    (b.version = 0 → b.mEntryVersion1 = [] →
      (b.writeBody.take 4 = writeN 4 b.numEntry ∧
       b.writeBody.length = 4 + 12 * b.mEntryVersion0.length ∧
       ∀ i e, b.mEntryVersion0[i]? = some e →
         (b.writeBody.drop (4 + 12 * i)).take 12 =
           writeN 4 e.mSegmentDuration ++ writeIntN 4 e.mMediaTime ++
           writeN 2 e.mMediaRateInteger ++ writeN 2 e.mMediaRateFraction)) ∧
    (b.version = 1 → b.mEntryVersion0 = [] →
      (b.writeBody.take 4 = writeN 4 b.numEntry ∧
       b.writeBody.length = 4 + 20 * b.mEntryVersion1.length ∧
       ∀ i e, b.mEntryVersion1[i]? = some e →
         (b.writeBody.drop (4 + 20 * i)).take 20 =
           writeN 8 e.mSegmentDuration ++ writeIntN 8 e.mMediaTime ++
           writeN 2 e.mMediaRateInteger ++ writeN 2 e.mMediaRateFraction)) := by
  obtain ⟨ver, flags, es0, es1⟩ := b
  constructor
  · intro hv hemp
    dsimp only at hv hemp
    subst hv; subst hemp
    have hbody := writeBody_v0 flags es0
    have hnum : EditListBox.numEntry ⟨0, flags, es0, []⟩ = es0.length := by
      simp [EditListBox.numEntry]
    rw [hbody, hnum]
    refine ⟨?_, ?_, ?_⟩
    · have h := List.take_left (writeN 4 es0.length) (es0.map writeEntryV0).flatten
      rwa [writeN_length] at h
    · rw [List.length_append, writeN_length,
        flatten_map_length_const writeEntryV0 12 writeEntryV0_length]
    · intro i e he
      have hdrop := @List.drop_append Nat (writeN 4 es0.length)
        ((es0.map writeEntryV0).flatten) (12 * i)
      rw [writeN_length] at hdrop
      dsimp only at he
      rw [hdrop]
      exact flatten_blocks_get writeEntryV0 12 writeEntryV0_length es0 i e he
  · intro hv hemp
    dsimp only at hv hemp
    subst hv; subst hemp
    have hbody := writeBody_v1 flags es1
    have hnum : EditListBox.numEntry ⟨1, flags, [], es1⟩ = es1.length := by
      simp [EditListBox.numEntry]
    rw [hbody, hnum]
    refine ⟨?_, ?_, ?_⟩
    · have h := List.take_left (writeN 4 es1.length) (es1.map writeEntryV1).flatten
      rwa [writeN_length] at h
    · rw [List.length_append, writeN_length,
        flatten_map_length_const writeEntryV1 20 writeEntryV1_length]
    · intro i e he
      have hdrop := @List.drop_append Nat (writeN 4 es1.length)
        ((es1.map writeEntryV1).flatten) (20 * i)
      rw [writeN_length] at hdrop
      dsimp only at he
      rw [hdrop]
      exact flatten_blocks_get writeEntryV1 20 writeEntryV1_length es1 i e he

/-- Witness for C6 on a concrete two-entry version-0 box: the body's first
four bytes are the count and the twelve bytes at offset 16 are entry 1's
fields in order. -/
theorem claim_write_body_layout_witness :
    (EditListBox.writeBody ⟨0, 0, [⟨1000, 0, 1, 0⟩, ⟨500, -1, 1, 0⟩], []⟩).take 4 =
      writeN 4 (EditListBox.numEntry ⟨0, 0, [⟨1000, 0, 1, 0⟩, ⟨500, -1, 1, 0⟩], []⟩) ∧
    ((EditListBox.writeBody ⟨0, 0, [⟨1000, 0, 1, 0⟩, ⟨500, -1, 1, 0⟩], []⟩).drop
        (4 + 12 * 1)).take 12 =
      writeN 4 500 ++ writeIntN 4 (-1) ++ writeN 2 1 ++ writeN 2 0 :=
  ⟨((claim_write_body_layout ⟨0, 0, [⟨1000, 0, 1, 0⟩, ⟨500, -1, 1, 0⟩], []⟩).1
      rfl rfl).1,
   ((claim_write_body_layout ⟨0, 0, [⟨1000, 0, 1, 0⟩, ⟨500, -1, 1, 0⟩], []⟩).1
      rfl rfl).2.2 1 ⟨500, -1, 1, 0⟩ (by decide)⟩

/-- C7: a full-box header carrying a version byte other than 0 or 1 makes
`parseBox` fail with *unsupported-version*; every successfully parsed box
has version 0 with its entries held in the 32-bit vector or version 1
with its entries held in the 64-bit vector, and writes of either layout
parse back at the matching field width. -/
theorem claim_parse_version_dispatch :
    (∀ (s f v : Nat) (rest : List Nat), 2 ≤ v → v < 256 →
      EditListBox.parseBox (writeN 4 s ++ elstType ++ writeN 1 v ++
          writeN 3 f ++ rest) = .error .unsupportedVersion) ∧
    (∀ (input : List Nat) (b : EditListBox) (rest : List Nat),
      EditListBox.parseBox input = .ok (b, rest) →
        (b.version = 0 ∧ b.mEntryVersion1 = []) ∨
        (b.version = 1 ∧ b.mEntryVersion0 = [])) ∧
    (∀ (flags : Nat) (es0 : List EntryVersion0), flags < 2 ^ 24 →
      (∀ e ∈ es0, e.Valid) → 16 + 12 * es0.length < 2 ^ 32 →
      EditListBox.parseBox (EditListBox.writeBox ⟨0, flags, es0, []⟩) =
        .ok (⟨0, flags, es0, []⟩, [])) ∧
    (∀ (flags : Nat) (es1 : List EntryVersion1), flags < 2 ^ 24 →
      (∀ e ∈ es1, e.Valid) → 16 + 20 * es1.length < 2 ^ 32 →
      EditListBox.parseBox (EditListBox.writeBox ⟨1, flags, [], es1⟩) =
        .ok (⟨1, flags, [], es1⟩, [])) :=
  ⟨fun s f v rest h2 h256 => parse_unsupported_version s f v rest h2 h256,
   fun input b rest hp => parseBox_ok_version input b rest hp,
   fun flags es0 hflags hval hsz => parse_write_v0 flags es0 hflags hval hsz,
   fun flags es1 hflags hval hsz => parse_write_v1 flags es1 hflags hval hsz⟩

/-- Witness for C7: version byte 2 is rejected as *unsupported-version*;
a one-entry version-1 box parses back with its entry in the 64-bit
vector. -/
theorem claim_parse_version_dispatch_witness :
    EditListBox.parseBox (writeN 4 12 ++ elstType ++ writeN 1 2 ++
        writeN 3 0 ++ []) = .error .unsupportedVersion ∧
    EditListBox.parseBox (EditListBox.writeBox ⟨1, 0, [], [⟨100, -1, 1, 0⟩]⟩) =
      .ok (⟨1, 0, [], [⟨100, -1, 1, 0⟩]⟩, []) :=
  ⟨claim_parse_version_dispatch.1 12 0 2 [] (by decide) (by decide),
   claim_parse_version_dispatch.2.2.2 0 [⟨100, -1, 1, 0⟩] (by decide)
     (by decide) (by decide)⟩

/-- C8: an `EditBox` with no `EditListBox` set writes as a header-only
`edts` box (8 bytes: size and type only), and parsing those bytes yields
a container whose `getEditListBox` reports an absent `EditListBox`. -/
theorem claim_editbox_empty_roundtrip :
    EditBox.writeBox EditBox.init = writeN 4 8 ++ edtsType ∧
    EditBox.parseBox (EditBox.writeBox EditBox.init) = .ok (EditBox.init, []) ∧
    EditBox.getEditListBox EditBox.init = none := by
  refine ⟨rfl, ?_, rfl⟩
  rfl
